import Mathlib

/-!
Verification of the monome-rs client library (src/lib.rs) against its
natural-language specification.

The OSC codec and the UDP socket are external collaborators: frames are
modelled at the decoded message level (address string plus typed argument
list).  Machine integers are modelled as `Int`/`Nat` with explicit wrapping
where a cast can overflow.  Loops are modelled as structural recursion or
folds over `List.range`.  Code that can panic is modelled with `Except`.
-/

/-- OSC argument value (rosc::OscType restricted to the variants the library
pattern-matches on; `Other` stands for any of the remaining variants). -/
inductive OscTypeV where
  | Int (i : Int)
  | Str (s : String)
  | Other
  deriving DecidableEq, Repr

/-- Decoded OSC message: an address and an optional argument list. -/
structure OscMessage where
  addr : String
  args : Option (List OscTypeV)
  deriving DecidableEq, Repr

/-- Decoded OSC packet: a single message or a bundle. -/
inductive OscPacket where
  | Message (msg : OscMessage)
  | Bundle (msgs : List OscMessage)
  deriving DecidableEq, Repr

/-- Boolean string-prefix test, modelling Rust str::starts_with.  Defined on
the underlying character lists so that it evaluates by kernel reduction. -/
def strHasPrefix (s pat : String) : Bool := List.isPrefixOf pat.data s.data

/-- Helper for `strContains`: does `pat` occur in the list at any offset. -/
def charListContains (pat : List Char) : List Char → Bool
  | [] => List.isPrefixOf pat []
  | c :: rest => List.isPrefixOf pat (c :: rest) || charListContains pat rest

/-- Boolean substring test, modelling Rust str::contains. -/
def strContains (s pat : String) : Bool := charListContains pat.data s.data

/-- Embeds `toidx` (src/lib.rs:39): `(y * width + x) as usize`.  The `as
usize` cast wraps modulo 2^64 for a negative operand, hence the explicit
reduction; all in-range uses are below 2^64 and unaffected. -/
def toidx (x y width : Int) : Nat := ((y * width + x) % (2 : Int) ^ 64).toNat

/-- One left rotation of an 8-bit value, modelling `u8::rotate_left(1)`. -/
def rol8 (m : Nat) : Nat := (m % 256 * 2 % 256) ||| (m % 256 / 128)

/-- The inner mask-building loop `for j in (0..8).rev()` of the boolean-array
encoder (src/lib.rs:367-371) and of `set_all` (src/lib.rs:1005-1009):
`packLoop bit t m` processes j = t-1, t-2, ..., 0 starting from mask `m`. -/
def packLoop (bit : Nat → Bool) : Nat → Nat → Nat
  | 0, mask => mask
  | t + 1, mask => packLoop bit t (rol8 mask ||| (if bit t then 1 else 0))

/-- Mask byte for row `i` produced by the `IntoAddrAndArgs` implementation
for `&[bool; 64]` (src/lib.rs:359-380).  The array is modelled by its index
function; only indices below 64 are ever read. -/
def rowMask (b : Nat → Bool) (i : Nat) : Nat :=
  packLoop (fun j => b (toidx (j : Int) (i : Int) 8)) 8 0

/-- Embeds `IntoAddrAndArgs for &[bool; 64]::as_addr_frag_and_args`: empty
address fragment and the 8 packed row masks as integer arguments. -/
def boolArray64AddrArgs (b : Nat → Bool) : String × List OscTypeV :=
  ("", (List.range 8).map (fun i => OscTypeV.Int (rowMask b i)))

/-- Value of the low `t` bits described by `bit`: the reference denotation the
pack loop is proved equal to. -/
def lowBits (bit : Nat → Bool) : Nat → Nat
  | 0 => 0
  | t + 1 => (if bit 0 then 1 else 0) + 2 * lowBits (fun k => bit (k + 1)) t

/-- Key press direction (mirrors `KeyDirection`, src/lib.rs:259). -/
inductive KeyDirection where
  | Up
  | Down
  deriving DecidableEq, Repr

/-- Typed input event (mirrors `MonomeEvent`, src/lib.rs:268). -/
inductive MonomeEvent where
  | GridKey (x y : Int) (direction : KeyDirection)
  | Tilt (n x y z : Int)
  | EncoderDelta (n : Nat) (delta : Int)
  | EncoderKey (n : Nat) (direction : KeyDirection)
  deriving DecidableEq, Repr

/-- Device kind (mirrors `MonomeDeviceType`, src/lib.rs:384). -/
inductive MonomeDeviceType where
  | Grid
  | Arc
  | Unknown
  deriving DecidableEq, Repr

/-- Embeds `From<&str> for MonomeDeviceType` (src/lib.rs:393): any string
containing "arc" is an Arc, everything else a Grid. -/
def MonomeDeviceType.fromStr (s : String) : MonomeDeviceType :=
  if strContains s "arc" then .Arc else .Grid

/-- Device descriptor produced by enumeration (mirrors `MonomeDevice`,
src/lib.rs:425). -/
structure MonomeDevice where
  name : String
  device_type : MonomeDeviceType
  port : Int
  deriving DecidableEq, Repr

/-- Embeds `MonomeDevice::new` (src/lib.rs:441). -/
def MonomeDevice.new (name : String) (device_type : String) (port : Int) :
    MonomeDevice :=
  ⟨name, MonomeDeviceType.fromStr device_type, port⟩

/-- Handshake field accumulator (mirrors `MonomeInfo`, src/lib.rs:80; the
source field `prefix` is named `pfx` here). -/
structure MonomeInfo where
  port : Option Int
  host : Option String
  pfx : Option String
  id : Option String
  size : Option (Int × Int)
  rotation : Option Int
  deriving DecidableEq, Repr

/-- Embeds `MonomeInfo::new` (src/lib.rs:90). -/
def MonomeInfo.new : MonomeInfo := ⟨none, none, none, none, none, none⟩

/-- Embeds `MonomeInfo::complete` (src/lib.rs:100). -/
def MonomeInfo.complete (self : MonomeInfo) : Bool :=
  self.port.isSome && self.host.isSome && self.pfx.isSome && self.id.isSome
    && self.size.isSome && self.rotation.isSome

/-- Indexing `args[i]` on a Rust Vec: out of bounds panics, modelled as an
error result. -/
def vecIndex (args : List OscTypeV) (i : Nat) : Except String OscTypeV :=
  match args[i]? with
  | some v => Except.ok v
  | none => Except.error "index out of bounds"

/-- Embeds `MonomeInfo::fill` (src/lib.rs:108-147).  Only the indexing
panics are fatal; the bundle arm merely logs (`error!("Bundle during
setup!?")`) and returns normally. -/
def MonomeInfo.fillE (self : MonomeInfo) (packet : OscPacket) :
    Except String MonomeInfo :=
  match packet with
  | .Message message =>
    if strHasPrefix message.addr "/sys" then
      match message.args with
      | some args =>
        if strHasPrefix message.addr "/sys/port" then
          match vecIndex args 0 with
          | .error e => .error e
          | .ok (.Int port) => .ok { self with port := some port }
          | .ok _ => .ok self
        else if strHasPrefix message.addr "/sys/host" then
          match vecIndex args 0 with
          | .error e => .error e
          | .ok (.Str host) => .ok { self with host := some host }
          | .ok _ => .ok self
        else if strHasPrefix message.addr "/sys/id" then
          match vecIndex args 0 with
          | .error e => .error e
          | .ok (.Str id) => .ok { self with id := some id }
          | .ok _ => .ok self
        else if strHasPrefix message.addr "/sys/prefix" then
          match vecIndex args 0 with
          | .error e => .error e
          | .ok (.Str p) => .ok { self with pfx := some p }
          | .ok _ => .ok self
        else if strHasPrefix message.addr "/sys/rotation" then
          match vecIndex args 0 with
          | .error e => .error e
          | .ok (.Int rotation) => .ok { self with rotation := some rotation }
          | .ok _ => .ok self
        else if strHasPrefix message.addr "/sys/size" then
          match vecIndex args 0 with
          | .error e => .error e
          | .ok (.Int x) =>
            match vecIndex args 1 with
            | .error e => .error e
            | .ok (.Int y) => .ok { self with size := some (x, y) }
            | .ok _ => .ok self
          | .ok _ => .ok self
        else .ok self
      | none => .ok self
    else .ok self
  | .Bundle _ => .ok self

/-- The receive-and-fill sequence of `Monome::setup` (src/lib.rs:632-647),
applied to a list of received packets in arrival order. -/
def fillFoldE (info : MonomeInfo) : List OscPacket → Except String MonomeInfo
  | [] => .ok info
  | p :: rest =>
    match info.fillE p with
    | .ok j => fillFoldE j rest
    | .error e => .error e

/-- Milliseconds of inactivity after which enumeration stops
(`DEVICE_ENUMERATION_TIMEOUT_MS`, src/lib.rs:36). -/
def DEVICE_ENUMERATION_TIMEOUT_MS : Nat := 500

/-- The slice pattern `[String(name), String(device_type), Int(port)]` of the
enumeration loop (src/lib.rs:714-718): the descriptor it pushes, if the
arguments match. -/
def deviceOfArgs : List OscTypeV → Option MonomeDevice
  | [.Str name, .Str device_type, .Int port] =>
    some (MonomeDevice.new name device_type port)
  | _ => none

/-- Embeds the receive loop of `Monome::enumerate_devices_with_port`
(src/lib.rs:700-739).  The input lists the received datagrams in arrival
order; each is paired with the delay, in ms, between the start of that loop
iteration (when `Delay::new` re-arms a fresh 500 ms timeout) and its
arrival.  An exhausted list means the timeout fires first.  A
/serialosc/device message with no argument list hits the `else { break }`
arm (src/lib.rs:719-721). -/
def enumLoop (devices : List MonomeDevice) :
    List (Nat × OscPacket) → List MonomeDevice
  | [] => devices
  | (gap, p) :: rest =>
    if DEVICE_ENUMERATION_TIMEOUT_MS ≤ gap then devices
    else
      match p with
      | .Message message =>
        if message.addr = "/serialosc/device" then
          match message.args with
          | some args =>
            match deviceOfArgs args with
            | some d => enumLoop (devices ++ [d]) rest
            | none => enumLoop devices rest
          | none => devices
        else enumLoop devices rest
      | .Bundle _ => enumLoop devices rest

/-- Modelled from the spec: the enumeration loop as claim C2 words it, for
comparison with `enumLoop`.  Here the 500 ms inactivity window is reset only
by a receive matching the /serialosc/device address; `elapsed` is the time
since the window was last reset. -/
def enumLoopSpec (devices : List MonomeDevice) (elapsed : Nat) :
    List (Nat × OscPacket) → List MonomeDevice
  | [] => devices
  | (gap, p) :: rest =>
    if DEVICE_ENUMERATION_TIMEOUT_MS ≤ elapsed + gap then devices
    else
      match p with
      | .Message message =>
        if message.addr = "/serialosc/device" then
          match message.args with
          | some args =>
            match deviceOfArgs args with
            | some d => enumLoopSpec (devices ++ [d]) 0 rest
            | none => enumLoopSpec devices 0 rest
          | none => enumLoopSpec devices 0 rest
        else enumLoopSpec devices (elapsed + gap) rest
      | .Bundle _ => enumLoopSpec devices (elapsed + gap) rest

/-- The condition on a received datagram that makes `enumLoop` return
instead of iterating: the re-armed 500 ms delay fires first, or the datagram
is a /serialosc/device message with no argument list (the `break` arm). -/
def enumStops (e : Nat × OscPacket) : Bool :=
  decide (DEVICE_ENUMERATION_TIMEOUT_MS ≤ e.1) ||
    (match e.2 with
     | .Message message =>
       decide (message.addr = "/serialosc/device") && message.args.isNone
     | .Bundle _ => false)

/-- The descriptor, if any, that a processed datagram contributes to the
enumeration result. -/
def enumExtract (e : Nat × OscPacket) : Option MonomeDevice :=
  match e.2 with
  | .Message message =>
    if message.addr = "/serialosc/device" then
      match message.args with
      | some args => deviceOfArgs args
      | none => none
    else none
  | .Bundle _ => none

/-- Capacity of the outbound frame channel created in `Monome::from_device`
(src/lib.rs:878): `futures::sync::mpsc::channel(16)`. -/
def outboundCapacity : Nat := 16

/-- Capacity of the inbound frame queue created in `Monome::from_device`
(src/lib.rs:879): `ArrayQueue::new(32)`. -/
def inboundCapacity : Nat := 32

/-- The live session object (mirrors `Monome`, src/lib.rs:234; the source
field `prefix` is named `pfx` here).  The two channel ends are modelled by
explicit FIFO lists; `txClosed` models a disconnected outbound channel;
`sentLog` is a ghost field recording every frame handed to `try_send`, in
order, whether or not the queue accepted it. -/
structure Monome where
  name : String
  device_type : MonomeDeviceType
  port : Int
  host : String
  id : String
  pfx : String
  rotation : Int
  size : Int × Int
  q : List OscPacket
  txQueue : List OscMessage
  txClosed : Bool
  sentLog : List OscMessage
  deriving DecidableEq, Repr

/-- Embeds `try_send` on the bounded outbound channel (src/lib.rs:1409): a
full or disconnected channel rejects the frame; the error is only logged. -/
def trySend (m : Monome) (msg : OscMessage) : Monome :=
  if m.txClosed || outboundCapacity ≤ m.txQueue.length then m
  else { m with txQueue := m.txQueue ++ [msg] }

/-- Embeds `Monome::send_no_prefix` (src/lib.rs:1401-1417): build the
message, record it in the ghost log, and try_send it. -/
def Monome.sendNoPfx (self : Monome) (addr : String) (args : List OscTypeV) :
    Monome :=
  trySend { self with sentLog := self.sentLog ++ [⟨addr, some args⟩] }
    ⟨addr, some args⟩

/-- Embeds `Monome::send` (src/lib.rs:1395-1398): prepend the session prefix
to the address. -/
def Monome.send (self : Monome) (addr : String) (args : List OscTypeV) :
    Monome :=
  self.sendNoPfx (self.pfx ++ addr) args

/-- Embeds `IntoAddrAndArgs for i32` (src/lib.rs:314): intensity. -/
def intAddrArg (i : Int) : String × OscTypeV := ("level/", .Int i)

/-- Embeds `IntoAddrAndArgs for bool` (src/lib.rs:321): on/off. -/
def boolAddrArg (b : Bool) : String × OscTypeV :=
  ("", .Int (if b then 1 else 0))

/-- Embeds `IntoAddrAndArgs for &[u8; 64]` (src/lib.rs:327): 64 intensity
arguments.  Elements are u8 values, modelled as naturals below 256. -/
def u8x64AddrArgs (values : List Nat) : String × List OscTypeV :=
  ("level/", values.map (fun (v : Nat) => .Int (v : Int)))

/-- Embeds `IntoAddrAndArgs for u8` (src/lib.rs:338): one mask argument. -/
def u8AddrArgs (v : Nat) : String × List OscTypeV := ("", [.Int (v : Int)])

/-- Embeds `IntoAddrAndArgs for &[u8; 8]` (src/lib.rs:347): 8 mask
arguments. -/
def u8x8AddrArgs (masks : List Nat) : String × List OscTypeV :=
  ("", masks.map (fun (v : Nat) => .Int (v : Int)))

/-- Embeds `Monome::set` (src/lib.rs:925-938).  The `IntoAddrAndArgs`
dispatch is modelled by passing the (fragment, argument) pair. -/
def Monome.set (self : Monome) (x y : Int) (arg : String × OscTypeV) :
    Monome :=
  if self.device_type ≠ .Grid then self
  else self.send ("/grid/led/" ++ arg.1 ++ "set") [.Int x, .Int y, arg.2]

/-- Embeds `Monome::all` (src/lib.rs:957-967). -/
def Monome.all (self : Monome) (arg : String × OscTypeV) : Monome :=
  if self.device_type ≠ .Grid then self
  else self.send ("/grid/led/" ++ arg.1 ++ "all") [arg.2]

/-- Embeds `Monome::map` (src/lib.rs:1091-1108). -/
def Monome.map (self : Monome) (x_offset y_offset : Int)
    (masks : String × List OscTypeV) : Monome :=
  if self.device_type ≠ .Grid then self
  else self.send ("/grid/led/" ++ masks.1 ++ "map")
    ([.Int x_offset, .Int y_offset] ++ masks.2)

/-- Embeds `Monome::row` (src/lib.rs:1133-1150). -/
def Monome.row (self : Monome) (x_offset y : Int)
    (leds : String × List OscTypeV) : Monome :=
  if self.device_type ≠ .Grid then self
  else self.send ("/grid/led/" ++ leds.1 ++ "row")
    ([.Int x_offset, .Int y] ++ leds.2)

/-- Embeds `Monome::col` (src/lib.rs:1176-1193). -/
def Monome.col (self : Monome) (x y_offset : Int)
    (leds : String × List OscTypeV) : Monome :=
  if self.device_type ≠ .Grid then self
  else self.send ("/grid/led/" ++ leds.1 ++ "col")
    ([.Int x, .Int y_offset] ++ leds.2)

/-- Masks for the 8x8 quadrant with origin (8*b, 8*a) computed by the inner
loops of `Monome::set_all` (src/lib.rs:999-1011). -/
def quadMasks (leds : Nat → Bool) (width : Int) (a b : Int) : List Nat :=
  (List.range 8).map (fun (i : Nat) =>
    packLoop (fun j => leds (toidx (b * 8 + (j : Int)) (a * 8 + (i : Int)) width))
      8 0)

/-- Embeds `Monome::set_all` (src/lib.rs:989-1015).  The led slice is
modelled by its index function. -/
def Monome.setAll (self : Monome) (leds : Nat → Bool) : Monome :=
  if self.device_type ≠ .Grid then self
  else
    let width_in_quad := self.size.1 / 8
    let height_in_quad := self.size.2 / 8
    let width := self.size.1
    (List.range height_in_quad.toNat).foldl (fun macc (a : Nat) =>
      (List.range width_in_quad.toNat).foldl (fun macc2 (b : Nat) =>
        macc2.map ((b : Int) * 8) ((a : Int) * 8)
          (u8x8AddrArgs (quadMasks leds width (a : Int) (b : Int)))) macc) self

/-- Intensities of the 8x8 quadrant with origin (8*b, 8*a) extracted by the
inner loops of `Monome::set_all_intensity` (src/lib.rs:1050-1059), in
row-major order. -/
def quadIntensities (leds : Nat → Nat) (width : Int) (a b : Int) : List Nat :=
  (List.range 8).flatMap (fun (i : Nat) =>
    (List.range 8).map (fun (j : Nat) =>
      leds (toidx (b * 8 + (j : Int)) (a * 8 + (i : Int)) width)))

/-- Embeds `Monome::set_all_intensity` (src/lib.rs:1040-1063). -/
def Monome.setAllIntensity (self : Monome) (leds : Nat → Nat) : Monome :=
  if self.device_type ≠ .Grid then self
  else
    let width_in_quad := self.size.1 / 8
    let height_in_quad := self.size.2 / 8
    let width := self.size.1
    (List.range height_in_quad.toNat).foldl (fun macc (a : Nat) =>
      (List.range width_in_quad.toNat).foldl (fun macc2 (b : Nat) =>
        macc2.map ((b : Int) * 8) ((a : Int) * 8)
          (u8x64AddrArgs (quadIntensities leds width (a : Int) (b : Int)))) macc) self

/-- Wrapping cast of an unsigned value to i32 (`as i32`). -/
def toI32 (n : Nat) : Int :=
  if n % 2 ^ 32 < 2 ^ 31 then ((n % 2 ^ 32 : Nat) : Int)
  else ((n % 2 ^ 32 : Nat) : Int) - 2 ^ 32

/-- Wrapping cast of an i32 value to usize (`as usize`). -/
def i32AsUsize (i : Int) : Nat := (i % 2 ^ 64).toNat

/-- Embeds `Monome::ring_set` (src/lib.rs:1215-1226): capability-checked
against Arc. -/
def Monome.ringSet (self : Monome) (n index intensity : Nat) : Monome :=
  if self.device_type ≠ .Arc then self
  else self.send "/ring/set"
    [.Int (toI32 n), .Int (toI32 index), .Int (toI32 intensity)]

/-- Embeds `Monome::ring_all` (src/lib.rs:1246-1256): capability-checked
against Arc. -/
def Monome.ringAll (self : Monome) (n intensity : Nat) : Monome :=
  if self.device_type ≠ .Arc then self
  else self.send "/ring/all" [.Int (toI32 n), .Int (toI32 intensity)]

/-- Embeds `Monome::ring_range` (src/lib.rs:1279-1291): capability-checked
against Arc. -/
def Monome.ringRange (self : Monome)
    (n start_offset end_offset intensity : Nat) : Monome :=
  if self.device_type ≠ .Arc then self
  else self.send "/ring/range"
    [.Int (toI32 n), .Int (toI32 start_offset), .Int (toI32 end_offset),
      .Int (toI32 intensity)]

/-- Embeds `Monome::ring_map` (src/lib.rs:1314-1322).  Note: the source has
no capability check here; the frame is sent whatever the device kind.  The
64 values are u8, modelled by an index function. -/
def Monome.ringMap (self : Monome) (n : Nat) (values : Nat → Nat) : Monome :=
  self.send "/ring/map"
    (.Int (toI32 n) :: (List.range 64).map (fun i => .Int ((values i : Int))))

/-- Embeds `Monome::tilt_all` (src/lib.rs:1326-1331): goes through `send`,
so the session prefix is prepended to "/tilt/set". -/
def Monome.tiltAll (self : Monome) (enable : Bool) : Monome :=
  self.send "/tilt/set" [.Int 0, .Int (if enable then 1 else 0)]

/-- Embeds `Monome::set_rotation` (src/lib.rs:1334-1337): unprefixed send,
then the field update. -/
def Monome.setRotation (self : Monome) (rotation : Int) : Monome :=
  { self.sendNoPfx "/sys/rotation" [.Int rotation] with rotation := rotation }

/-- Embeds `Monome::set_prefix` (src/lib.rs:1340-1343): unprefixed send,
then the field update. -/
def Monome.setPrefixStr (self : Monome) (p : String) : Monome :=
  { self.sendNoPfx "/sys/prefix" [.Str p] with pfx := p }

/-- Embeds `Monome::parse` (src/lib.rs:1461-1564).  Frames are modelled in
decoded form (the OSC codec is an external collaborator).  The bundle arm is
`panic!("wtf.")`, modelled as a fatal error result. -/
def Monome.parseE (self : Monome) (packet : OscPacket) :
    Except String (Option MonomeEvent) :=
  match packet with
  | .Message message =>
    if strHasPrefix message.addr "/serialosc" then Except.ok none
    else if strHasPrefix message.addr "/sys" then Except.ok none
    else if strHasPrefix message.addr self.pfx then
      match message.args with
      | some args =>
        if strHasPrefix message.addr (self.pfx ++ "/grid/key") then
          match args with
          | [.Int x, .Int y, .Int v] =>
            Except.ok (some (.GridKey x y (if v = 1 then .Down else .Up)))
          | _ => Except.ok none
        else if strHasPrefix message.addr (self.pfx ++ "/tilt") then
          match args with
          | [.Int n, .Int x, .Int y, .Int z] =>
            Except.ok (some (.Tilt n x y z))
          | _ => Except.ok none
        else if strHasPrefix message.addr (self.pfx ++ "/enc/delta") then
          match args with
          | [.Int n, .Int delta] =>
            Except.ok (some (.EncoderDelta (i32AsUsize n) delta))
          | _ => Except.ok none
        else if strHasPrefix message.addr (self.pfx ++ "/enc/key") then
          match args with
          | [.Int n, .Int direction] =>
            Except.ok (some (.EncoderKey (i32AsUsize n)
              (if direction = 1 then .Down else .Up)))
          | _ => Except.ok none
        else Except.ok none
      | none => Except.ok none
    else Except.ok none
  | .Bundle _ => Except.error "wtf."

/-- Embeds `Monome::poll` (src/lib.rs:1452-1459): pop at most one frame from
the inbound queue; an empty queue yields `none` at once. -/
def Monome.pollE (self : Monome) :
    Except String (Option MonomeEvent × Monome) :=
  match self.q with
  | [] => Except.ok (none, self)
  | buf :: rest =>
    (self.parseE buf).map (fun ev => (ev, { self with q := rest }))

/-- Embeds the inbound push of the Transport reactor (src/lib.rs:213-219):
`ArrayQueue::push` on a full queue drops the frame and logs. -/
def transportPushInbound (q : List OscPacket) (frame : OscPacket) :
    List OscPacket :=
  if inboundCapacity ≤ q.length then q else q ++ [frame]

/-- Decidable equality for `Except`, used to state concrete evaluations of
the fallible embeddings. -/
instance {e a : Type} [DecidableEq e] [DecidableEq a] : DecidableEq (Except e a) := fun x y =>
  match x, y with
  | .error u, .error v =>
    if h : u = v then isTrue (congrArg Except.error h)
    else isFalse (fun hh => h (Except.error.inj hh))
  | .ok u, .ok v =>
    if h : u = v then isTrue (congrArg Except.ok h)
    else isFalse (fun hh => h (Except.ok.inj hh))
  | .error _, .ok _ => isFalse (fun hh => Except.noConfusion hh)
  | .ok _, .error _ => isFalse (fun hh => Except.noConfusion hh)


/-- Single-field update extracted from one packet by `MonomeInfo::fill`: at
most one of the six fields is populated. -/
structure InfoUpd where
  port : Option Int
  host : Option String
  pfx : Option String
  id : Option String
  size : Option (Int × Int)
  rotation : Option Int
  deriving DecidableEq, Repr

/-- The empty update. -/
def InfoUpd.empty : InfoUpd := ⟨none, none, none, none, none, none⟩

/-- Apply an update to an accumulator: populated fields override. -/
def applyUpd (i : MonomeInfo) (u : InfoUpd) : MonomeInfo :=
  ⟨u.port.or i.port, u.host.or i.host, u.pfx.or i.pfx, u.id.or i.id,
    u.size.or i.size, u.rotation.or i.rotation⟩

/-- Sequential composition of updates: the second overrides the first. -/
def InfoUpd.comb (u v : InfoUpd) : InfoUpd :=
  ⟨v.port.or u.port, v.host.or u.host, v.pfx.or u.pfx, v.id.or u.id,
    v.size.or u.size, v.rotation.or u.rotation⟩

/-- The update performed by `MonomeInfo::fill` on one packet, with the same
branch structure (and the same out-of-bounds panics) as `fillE`. -/
def updE (packet : OscPacket) : Except String InfoUpd :=
  match packet with
  | .Message message =>
    if strHasPrefix message.addr "/sys" then
      match message.args with
      | some args =>
        if strHasPrefix message.addr "/sys/port" then
          match vecIndex args 0 with
          | .error e => .error e
          | .ok (.Int port) => .ok { InfoUpd.empty with port := some port }
          | .ok _ => .ok InfoUpd.empty
        else if strHasPrefix message.addr "/sys/host" then
          match vecIndex args 0 with
          | .error e => .error e
          | .ok (.Str host) => .ok { InfoUpd.empty with host := some host }
          | .ok _ => .ok InfoUpd.empty
        else if strHasPrefix message.addr "/sys/id" then
          match vecIndex args 0 with
          | .error e => .error e
          | .ok (.Str id) => .ok { InfoUpd.empty with id := some id }
          | .ok _ => .ok InfoUpd.empty
        else if strHasPrefix message.addr "/sys/prefix" then
          match vecIndex args 0 with
          | .error e => .error e
          | .ok (.Str p) => .ok { InfoUpd.empty with pfx := some p }
          | .ok _ => .ok InfoUpd.empty
        else if strHasPrefix message.addr "/sys/rotation" then
          match vecIndex args 0 with
          | .error e => .error e
          | .ok (.Int rotation) => .ok { InfoUpd.empty with rotation := some rotation }
          | .ok _ => .ok InfoUpd.empty
        else if strHasPrefix message.addr "/sys/size" then
          match vecIndex args 0 with
          | .error e => .error e
          | .ok (.Int x) =>
            match vecIndex args 1 with
            | .error e => .error e
            | .ok (.Int y) => .ok { InfoUpd.empty with size := some (x, y) }
            | .ok _ => .ok InfoUpd.empty
          | .ok _ => .ok InfoUpd.empty
        else .ok InfoUpd.empty
      | none => .ok InfoUpd.empty
    else .ok InfoUpd.empty
  | .Bundle _ => .ok InfoUpd.empty

/-- Composition of the updates of a packet list, failing at the first
panicking packet, like the receive loop does. -/
def updFoldE : List OscPacket → Except String InfoUpd
  | [] => .ok InfoUpd.empty
  | p :: rest =>
    match updE p with
    | .ok u => (updFoldE rest).map (fun w => u.comb w)
    | .error e => .error e

/-- Last populated value in a list of optional observations. -/
def lastSome {α : Type} : List (Option α) → Option α
  | [] => none
  | o :: rest => (lastSome rest).or o

/-- The port value a packet would store, if any. -/
def portOf (p : OscPacket) : Option Int :=
  match updE p with
  | .ok u => u.port
  | .error _ => none

/-- The host value a packet would store, if any. -/
def hostOf (p : OscPacket) : Option String :=
  match updE p with
  | .ok u => u.host
  | .error _ => none

/-- The prefix value a packet would store, if any. -/
def pfxOf (p : OscPacket) : Option String :=
  match updE p with
  | .ok u => u.pfx
  | .error _ => none

/-- The id value a packet would store, if any. -/
def idOf (p : OscPacket) : Option String :=
  match updE p with
  | .ok u => u.id
  | .error _ => none

/-- The size value a packet would store, if any. -/
def sizeOf' (p : OscPacket) : Option (Int × Int) :=
  match updE p with
  | .ok u => u.size
  | .error _ => none

/-- The rotation value a packet would store, if any. -/
def rotOf (p : OscPacket) : Option Int :=
  match updE p with
  | .ok u => u.rotation
  | .error _ => none

/-- The six handshake replies `/sys/info` provokes, in the documented
order:  port, host, id, prefix, rotation, size. -/
def stdHandshake (p : Int) (ho ident pre : String) (r w hh : Int) :
    List OscPacket :=
  [.Message ⟨"/sys/port", some [.Int p]⟩,
   .Message ⟨"/sys/host", some [.Str ho]⟩,
   .Message ⟨"/sys/id", some [.Str ident]⟩,
   .Message ⟨"/sys/prefix", some [.Str pre]⟩,
   .Message ⟨"/sys/rotation", some [.Int r]⟩,
   .Message ⟨"/sys/size", some [.Int w, .Int hh]⟩]

/-- A concrete grid session used to instantiate theorems: a 16x8 grid with
prefix "/prefix" and idle queues. -/
def sampleGrid : Monome :=
  ⟨"m0000123", .Grid, 14656, "127.0.0.1", "m0000123", "/prefix", 0, (16, 8),
    [], [], false, []⟩

/-- A concrete arc session used to instantiate theorems. -/
def sampleArc : Monome :=
  ⟨"m0000999", .Arc, 14657, "127.0.0.1", "m0000999", "/prefix", 0, (0, 0),
    [], [], false, []⟩

/-- The concrete grid session with a full outbound queue. -/
def fullGrid : Monome :=
  { sampleGrid with
    txQueue := List.replicate 16 ⟨"/prefix/grid/led/all", some [.Int 0]⟩ }

/-! Helper lemmas for the bit-packing codec. -/

theorem lowBits_lt (t : Nat) : ∀ (bit : Nat → Bool), lowBits bit t < 2 ^ t := by
  induction t with
  | zero => intro bit; simp [lowBits]
  | succ t ih =>
    intro bit
    have h := ih (fun k => bit (k + 1))
    simp only [lowBits, pow_succ]
    split <;> omega

theorem lowBits_succ_high (t : Nat) :
    ∀ (bit : Nat → Bool),
      lowBits bit (t + 1) = lowBits bit t + (if bit t then 2 ^ t else 0) := by
  induction t with
  | zero => intro bit; simp [lowBits]
  | succ t ih =>
    intro bit
    have h := ih (fun k => bit (k + 1))
    simp only [lowBits] at h ⊢
    rw [h]
    split <;> split <;> ring

theorem testBit_lowBits (t : Nat) :
    ∀ (bit : Nat → Bool) (k : Nat), k < t → (lowBits bit t).testBit k = bit k := by
  induction t with
  | zero => intro bit k hk; omega
  | succ t ih =>
    intro bit k hk
    cases k with
    | zero =>
      cases hb : bit 0 <;> simp [lowBits, hb, Nat.testBit_zero]
    | succ k =>
      have hk' : k < t := by omega
      have := ih (fun j => bit (j + 1)) k hk'
      simp only [lowBits, Nat.testBit_succ]
      have harith :
          ((if bit 0 then 1 else 0) + 2 * lowBits (fun j => bit (j + 1)) t) / 2
            = lowBits (fun j => bit (j + 1)) t := by
        split <;> omega
      rw [harith, this]

theorem lor_two_mul_eq_add (m c : Nat) (hc : c ≤ 1) : 2 * m ||| c = 2 * m + c := by
  interval_cases c
  · simp
  · apply Nat.eq_of_testBit_eq
    intro i
    rw [Nat.testBit_lor]
    cases i with
    | zero =>
      have ha : 2 * m % 2 = 0 := by omega
      have hb : (2 * m + 1) % 2 = 1 := by omega
      simp [Nat.testBit_zero, ha, hb]
    | succ i =>
      have h2 : (2 * m + 1) / 2 = m := by omega
      have h3 : 2 * m / 2 = m := by omega
      simp [Nat.testBit_succ, h2, h3]

theorem rol8_small (m : Nat) (h : m < 128) : rol8 m = 2 * m := by
  unfold rol8
  have h1 : m % 256 = m := Nat.mod_eq_of_lt (by omega)
  rw [h1]
  have h2 : m * 2 % 256 = m * 2 := Nat.mod_eq_of_lt (by omega)
  have h3 : m / 128 = 0 := Nat.div_eq_of_lt h
  rw [h2, h3, Nat.or_zero]
  ring

theorem packLoop_eq (bit : Nat → Bool) :
    ∀ (t m : Nat), t ≤ 8 → m < 2 ^ (8 - t) →
      packLoop bit t m = m * 2 ^ t + lowBits bit t := by
  intro t
  induction t with
  | zero => intro m _ _; simp [packLoop, lowBits]
  | succ t ih =>
    intro m ht hm
    have hm128 : m < 128 := by
      have : 2 ^ (8 - (t + 1)) ≤ 2 ^ 7 := Nat.pow_le_pow_right (by omega) (by omega)
      omega
    have hstep : rol8 m ||| (if bit t then 1 else 0) = 2 * m + (if bit t then 1 else 0) := by
      rw [rol8_small m hm128]
      exact lor_two_mul_eq_add m _ (by split <;> omega)
    have hnew : 2 * m + (if bit t then 1 else 0) < 2 ^ (8 - t) := by
      have h1 : 2 ^ (8 - (t + 1)) * 2 = 2 ^ (8 - t) := by
        rw [← pow_succ]
        congr 1
        omega
      split <;> omega
    calc packLoop bit (t + 1) m
        = packLoop bit t (rol8 m ||| (if bit t then 1 else 0)) := rfl
      _ = (2 * m + (if bit t then 1 else 0)) * 2 ^ t + lowBits bit t := by
          rw [hstep]; exact ih _ (by omega) hnew
      _ = m * 2 ^ (t + 1) + lowBits bit (t + 1) := by
          rw [lowBits_succ_high]
          split <;> ring

theorem toidx_small (x y width : Int) (h0 : 0 ≤ y * width + x)
    (h1 : y * width + x < 2 ^ 64) : (toidx x y width : Int) = y * width + x := by
  unfold toidx
  rw [Int.emod_eq_of_lt h0 (by exact_mod_cast h1)]
  exact Int.toNat_of_nonneg h0

theorem lowBits_congr (t : Nat) :
    ∀ (bit1 bit2 : Nat → Bool), (∀ k, k < t → bit1 k = bit2 k) →
      lowBits bit1 t = lowBits bit2 t := by
  induction t with
  | zero => intro _ _ _; rfl
  | succ t ih =>
    intro bit1 bit2 h
    simp only [lowBits]
    rw [h 0 (by omega), ih _ _ (fun k hk => h (k + 1) (by omega))]

theorem rowMask_eq_lowBits (b : Nat → Bool) (i : Nat) (hi : i < 8) :
    rowMask b i = lowBits (fun k => b (8 * i + k)) 8 := by
  unfold rowMask
  rw [packLoop_eq _ 8 0 (by omega) (by norm_num)]
  rw [Nat.zero_mul, Nat.zero_add]
  apply lowBits_congr
  intro k hk
  have hiI : (i : Int) < 8 := by exact_mod_cast hi
  have hkI : (k : Int) < 8 := by exact_mod_cast hk
  have hpow : (2 : Int) ^ 64 = 18446744073709551616 := by norm_num
  have h1 : (toidx (k : Int) (i : Int) 8 : Int) = (i : Int) * 8 + (k : Int) :=
    toidx_small _ _ _ (by positivity) (by rw [hpow]; omega)
  congr 1
  omega

theorem rowMask_testBit (b : Nat → Bool) (i k : Nat) (hi : i < 8) (hk : k < 8) :
    (rowMask b i).testBit k = b (8 * i + k) := by
  rw [rowMask_eq_lowBits b i hi]
  exact testBit_lowBits 8 _ k hk

theorem rowMask_lt (b : Nat → Bool) (i : Nat) (hi : i < 8) : rowMask b i < 256 := by
  rw [rowMask_eq_lowBits b i hi]
  simpa using lowBits_lt 8 (fun k => b (8 * i + k))


/-- Claim C1: encoding a 64-element boolean array through the bool-array
command-argument shape yields the empty address fragment and 8 mask bytes
(values below 256), one per row; for every row i and bit k below 8, bit k of
mask i is set iff entry 8*i+k of the array is true, so unpacking with
led(k,i) = bit k of mask i reproduces the array exactly. -/
theorem claim_C1_bool64_pack_unpack (b : Nat → Bool) :
    (boolArray64AddrArgs b).1 = "" ∧
    (boolArray64AddrArgs b).2.length = 8 ∧
    ∀ i k : Nat, i < 8 → k < 8 →
      rowMask b i < 256 ∧
      (boolArray64AddrArgs b).2[i]? = some (.Int (rowMask b i)) ∧
      (rowMask b i).testBit k = b (8 * i + k) := by
  refine ⟨rfl, by simp [boolArray64AddrArgs], ?_⟩
  intro i k hi hk
  refine ⟨rowMask_lt b i hi, ?_, rowMask_testBit b i k hi hk⟩
  simp [boolArray64AddrArgs, List.getElem?_map, List.getElem?_range, hi]

/-- Witness for C1 at a concrete array and position: row 2, bit 5 of the
packed masks recovers entry 21. -/
theorem claim_C1_bool64_pack_unpack_witness :
    Nat.testBit (rowMask (fun n => decide (n % 3 = 0)) 2) 5 = true := by
  have h := ((claim_C1_bool64_pack_unpack
    (fun n => decide (n % 3 = 0))).2.2 2 5 (by decide) (by decide)).2.2
  simpa using h

/-- Claim C4 counterexample: a bundle received during the handshake receive
loop is not fatal — `fill` logs and returns unchanged, and the loop keeps
going — whereas the claim asserts that both the handshake phase and the
steady-state decode escalate a bundle. -/
theorem claim_C4_counterexample :
    MonomeInfo.fillE MonomeInfo.new (.Bundle []) = .ok MonomeInfo.new ∧
    fillFoldE MonomeInfo.new [.Bundle []] = .ok MonomeInfo.new ∧
    Monome.parseE sampleGrid (.Bundle []) = .error "wtf." :=
  ⟨rfl, rfl, rfl⟩

/-- Claim C4 amended: a bundle received during steady-state event decoding
is fatal (`panic!("wtf.")`), but a bundle received during the handshake
receive loop is only logged: `fill` returns the accumulator unchanged and
the receive loop continues with the next packet. -/
theorem claim_C4_bundle_fatality :
    (∀ (info : MonomeInfo) (msgs : List OscMessage),
      MonomeInfo.fillE info (.Bundle msgs) = .ok info) ∧
    (∀ (info : MonomeInfo) (msgs : List OscMessage) (rest : List OscPacket),
      fillFoldE info (.Bundle msgs :: rest) = fillFoldE info rest) ∧
    (∀ (m : Monome) (msgs : List OscMessage),
      Monome.parseE m (.Bundle msgs) = .error "wtf.") :=
  ⟨fun _ _ => rfl, fun _ _ _ => rfl, fun _ _ => rfl⟩

/-- Claim C10 counterexample: a /sys/size message with fewer than two
arguments need not panic — a single argument of the wrong type is accessed
as args[0], fails the Int pattern, and the message is ignored (args[1] is
never evaluated). -/
theorem claim_C10_counterexample :
    MonomeInfo.fillE MonomeInfo.new (.Message ⟨"/sys/size", some [.Str "x"]⟩)
      = .ok MonomeInfo.new := rfl

/-- The six recognized /sys sub-addresses of the handshake accumulator. -/
def sysAddrs : List String :=
  ["/sys/port", "/sys/host", "/sys/id", "/sys/prefix", "/sys/rotation",
    "/sys/size"]

/-- Claim C10 amended: a message on any of the six recognized /sys
sub-addresses with an empty (but present) argument list panics with an
out-of-bounds index; /sys/size additionally panics on a single argument when
that argument is an Int (args[1] is then evaluated); a single argument of a
non-Int type for /sys/size, wrongly-typed but present arguments, a missing
argument list, and unrecognized addresses are all ignored. -/
theorem claim_C10_fill_oob :
    (∀ (info : MonomeInfo) (a : String), a ∈ sysAddrs →
      MonomeInfo.fillE info (.Message ⟨a, some []⟩)
        = .error "index out of bounds") ∧
    (∀ (info : MonomeInfo) (x : Int),
      MonomeInfo.fillE info (.Message ⟨"/sys/size", some [.Int x]⟩)
        = .error "index out of bounds") ∧
    (∀ (info : MonomeInfo) (s : String),
      MonomeInfo.fillE info (.Message ⟨"/sys/size", some [.Str s]⟩)
        = .ok info) ∧
    (∀ (info : MonomeInfo) (s : String),
      MonomeInfo.fillE info (.Message ⟨"/sys/port", some [.Str s]⟩)
        = .ok info) ∧
    (∀ (info : MonomeInfo) (args : Option (List OscTypeV)),
      MonomeInfo.fillE info (.Message ⟨"/unrelated", args⟩) = .ok info) ∧
    (∀ (info : MonomeInfo) (a : String), a ∈ sysAddrs →
      MonomeInfo.fillE info (.Message ⟨a, none⟩) = .ok info) := by
  refine ⟨?_, fun _ _ => rfl, fun _ _ => rfl, fun _ _ => rfl, ?_, ?_⟩
  · intro info a ha
    simp only [sysAddrs, List.mem_cons, List.mem_singleton] at ha
    rcases ha with rfl | rfl | rfl | rfl | rfl | rfl | h
    · rfl
    · rfl
    · rfl
    · rfl
    · rfl
    · rfl
    · cases h
  · intro info args
    cases args <;> rfl
  · intro info a ha
    simp only [sysAddrs, List.mem_cons, List.mem_singleton] at ha
    rcases ha with rfl | rfl | rfl | rfl | rfl | rfl | h
    · rfl
    · rfl
    · rfl
    · rfl
    · rfl
    · rfl
    · cases h

/-- Witness for C10 at concrete inputs: /sys/host with an empty argument
list panics; /sys/id with no argument list is ignored. -/
theorem claim_C10_fill_oob_witness :
    MonomeInfo.fillE MonomeInfo.new (.Message ⟨"/sys/host", some []⟩)
        = .error "index out of bounds" ∧
    MonomeInfo.fillE MonomeInfo.new (.Message ⟨"/sys/id", none⟩)
        = .ok MonomeInfo.new :=
  ⟨claim_C10_fill_oob.1 MonomeInfo.new "/sys/host" (by decide),
   claim_C10_fill_oob.2.2.2.2.2 MonomeInfo.new "/sys/id" (by decide)⟩

/-- Claim C3 counterexample: `ring_map` called on a device of kind Grid is
not a no-op — the frame is built and enqueued (the source has no capability
check in `ring_map`). -/
theorem claim_C3_counterexample :
    (Monome.ringMap sampleGrid 0 (fun _ => 0)).txQueue ≠ sampleGrid.txQueue
      ∧ (Monome.ringMap sampleGrid 0 (fun _ => 0)).sentLog ≠ [] := by
  constructor <;> decide

/-- Claim C3 amended: ring_set, ring_all and ring_range are capability
checked against kind Arc — on any other kind they are logged no-ops that
leave the session (queues included) unchanged and raise nothing — and grid
commands are likewise checked against kind Grid; but ring_map performs no
capability check and always hands its frame to the outbound queue. -/
theorem claim_C3_ring_capability :
    (∀ (m : Monome) (n index intensity : Nat), m.device_type ≠ .Arc →
      m.ringSet n index intensity = m) ∧
    (∀ (m : Monome) (n intensity : Nat), m.device_type ≠ .Arc →
      m.ringAll n intensity = m) ∧
    (∀ (m : Monome) (n s e intensity : Nat), m.device_type ≠ .Arc →
      m.ringRange n s e intensity = m) ∧
    (∀ (m : Monome) (x y : Int) (arg : String × OscTypeV),
      m.device_type ≠ .Grid → m.set x y arg = m) ∧
    (∀ (m : Monome) (n : Nat) (values : Nat → Nat),
      (m.ringMap n values).sentLog = m.sentLog ++
        [⟨m.pfx ++ "/ring/map",
          some (.Int (toI32 n) ::
            (List.range 64).map (fun i => .Int ((values i : Int))))⟩]) := by
  refine ⟨?_, ?_, ?_, ?_, ?_⟩
  · intro m n index intensity h
    simp [Monome.ringSet, h]
  · intro m n intensity h
    simp [Monome.ringAll, h]
  · intro m n s e intensity h
    simp [Monome.ringRange, h]
  · intro m x y arg h
    simp [Monome.set, h]
  · intro m n values
    simp only [Monome.ringMap, Monome.send, Monome.sendNoPfx, trySend]
    split <;> rfl

/-- Witness for C3 at concrete inputs: ring_set on the sample grid is a
no-op, and a grid command on the sample arc is a no-op. -/
theorem claim_C3_ring_capability_witness :
    Monome.ringSet sampleGrid 0 1 2 = sampleGrid ∧
    Monome.set sampleArc 0 0 ("", .Int 1) = sampleArc :=
  ⟨claim_C3_ring_capability.1 sampleGrid 0 1 2 (by decide),
   claim_C3_ring_capability.2.2.2.1 sampleArc 0 0 ("", .Int 1) (by decide)⟩

theorem strHasPrefix_append_self (p s : String) :
    strHasPrefix (p ++ s) p = true := by
  unfold strHasPrefix
  rw [String.data_append]
  rw [List.isPrefixOf_iff_prefix]
  exact List.prefix_append _ _

theorem strHasPrefix_self (s : String) : strHasPrefix s s = true := by
  unfold strHasPrefix
  rw [List.isPrefixOf_iff_prefix]

/-- Claim C7: the outbound queue capacity is 16, the inbound 32; a send that
finds the outbound queue full or closed drops the new frame, never raises
(the function is total and returns normally), and leaves the queued frames
and their order untouched; a send that finds room appends in FIFO order; the
inbound push likewise drops on a full queue. -/
theorem claim_C7_queue_capacity :
    outboundCapacity = 16 ∧ inboundCapacity = 32 ∧
    (∀ (m : Monome) (addr : String) (args : List OscTypeV),
      outboundCapacity ≤ m.txQueue.length →
      (m.sendNoPfx addr args).txQueue = m.txQueue) ∧
    (∀ (m : Monome) (addr : String) (args : List OscTypeV),
      m.txClosed = true → (m.sendNoPfx addr args).txQueue = m.txQueue) ∧
    (∀ (m : Monome) (addr : String) (args : List OscTypeV),
      m.txClosed = false → m.txQueue.length < outboundCapacity →
      (m.sendNoPfx addr args).txQueue = m.txQueue ++ [⟨addr, some args⟩]) ∧
    (∀ (q : List OscPacket) (frame : OscPacket),
      inboundCapacity ≤ q.length → transportPushInbound q frame = q) := by
  refine ⟨rfl, rfl, ?_, ?_, ?_, ?_⟩
  · intro m addr args h
    simp [Monome.sendNoPfx, trySend, h]
  · intro m addr args h
    simp [Monome.sendNoPfx, trySend, h]
  · intro m addr args h1 h2
    simp [Monome.sendNoPfx, trySend, h1, Nat.not_le.mpr h2]
  · intro q frame h
    simp [transportPushInbound, h]

/-- Witness for C7 at a concrete session whose outbound queue holds 16
frames: the send is dropped and the queue is unchanged. -/
theorem claim_C7_queue_capacity_witness :
    (fullGrid.sendNoPfx "/prefix/grid/led/set" [.Int 0, .Int 0, .Int 1]).txQueue
      = fullGrid.txQueue :=
  claim_C7_queue_capacity.2.2.1 fullGrid "/prefix/grid/led/set"
    [.Int 0, .Int 0, .Int 1] (by decide)

/-- Claim C8: poll on an empty inbound queue returns none at once (the
embedding is a total function, never an error); with a frame at the head of
the queue that decodes to a prefix-matched grid/key message carrying integer
arguments x, y, v, poll returns GridKey with direction Down iff v = 1 and Up
for any other v.  The two side conditions state that the session prefix does
not itself sit inside the reserved /serialosc or /sys namespaces. -/
theorem claim_C8_poll :
    (∀ (m : Monome), m.q = [] → m.pollE = .ok (none, m)) ∧
    (∀ (m : Monome) (x y v : Int) (rest : List OscPacket),
      m.q = .Message ⟨m.pfx ++ "/grid/key", some [.Int x, .Int y, .Int v]⟩ :: rest →
      strHasPrefix (m.pfx ++ "/grid/key") "/serialosc" = false →
      strHasPrefix (m.pfx ++ "/grid/key") "/sys" = false →
      m.pollE = .ok (some (.GridKey x y (if v = 1 then .Down else .Up)),
        { m with q := rest })) := by
  constructor
  · intro m hq
    unfold Monome.pollE
    rw [hq]
  · intro m x y v rest hq h1 h2
    unfold Monome.pollE
    rw [hq]
    simp only [Monome.parseE, h1, h2, strHasPrefix_append_self,
      strHasPrefix_self, Bool.false_eq_true, if_false, if_true, Except.map]

/-- Witness for C8 at a concrete session and frame: a grid/key frame with
value 1 polls as GridKey Down, and the empty queue polls as none. -/
theorem claim_C8_poll_witness :
    Monome.pollE { sampleGrid with
        q := [.Message ⟨"/prefix/grid/key", some [.Int 3, .Int 4, .Int 1]⟩] }
      = .ok (some (.GridKey 3 4 .Down), sampleGrid) ∧
    Monome.pollE sampleGrid = .ok (none, sampleGrid) := by
  constructor
  · have h := claim_C8_poll.2 { sampleGrid with
        q := [.Message ⟨"/prefix/grid/key", some [.Int 3, .Int 4, .Int 1]⟩] }
      3 4 1 [] (by decide) (by decide) (by decide)
    exact h.trans (by decide)
  · exact claim_C8_poll.1 sampleGrid rfl

/-- Claim C9 amended: every command method goes through `send`, which
prepends the session prefix to the address — including the tilt enable
command, whose frame is addressed prefix ++ "/tilt/set" — except
set_rotation and set_prefix, which go through `send_no_prefix` and address
/sys/rotation and /sys/prefix unprefixed. -/
theorem claim_C9_prefixing :
    (∀ (m : Monome) (addr : String) (args : List OscTypeV),
      (m.send addr args).sentLog = m.sentLog ++ [⟨m.pfx ++ addr, some args⟩]) ∧
    (∀ (m : Monome) (x y : Int) (arg : String × OscTypeV),
      m.device_type = .Grid →
      (m.set x y arg).sentLog = m.sentLog ++
        [⟨m.pfx ++ ("/grid/led/" ++ arg.1 ++ "set"),
          some [.Int x, .Int y, arg.2]⟩]) ∧
    (∀ (m : Monome) (arg : String × OscTypeV), m.device_type = .Grid →
      (m.all arg).sentLog = m.sentLog ++
        [⟨m.pfx ++ ("/grid/led/" ++ arg.1 ++ "all"), some [arg.2]⟩]) ∧
    (∀ (m : Monome) (x y : Int) (masks : String × List OscTypeV),
      m.device_type = .Grid →
      (m.map x y masks).sentLog = m.sentLog ++
        [⟨m.pfx ++ ("/grid/led/" ++ masks.1 ++ "map"),
          some ([.Int x, .Int y] ++ masks.2)⟩]) ∧
    (∀ (m : Monome) (x y : Int) (leds : String × List OscTypeV),
      m.device_type = .Grid →
      (m.row x y leds).sentLog = m.sentLog ++
        [⟨m.pfx ++ ("/grid/led/" ++ leds.1 ++ "row"),
          some ([.Int x, .Int y] ++ leds.2)⟩]) ∧
    (∀ (m : Monome) (x y : Int) (leds : String × List OscTypeV),
      m.device_type = .Grid →
      (m.col x y leds).sentLog = m.sentLog ++
        [⟨m.pfx ++ ("/grid/led/" ++ leds.1 ++ "col"),
          some ([.Int x, .Int y] ++ leds.2)⟩]) ∧
    (∀ (m : Monome) (n index intensity : Nat), m.device_type = .Arc →
      (m.ringSet n index intensity).sentLog = m.sentLog ++
        [⟨m.pfx ++ "/ring/set",
          some [.Int (toI32 n), .Int (toI32 index), .Int (toI32 intensity)]⟩]) ∧
    (∀ (m : Monome) (n intensity : Nat), m.device_type = .Arc →
      (m.ringAll n intensity).sentLog = m.sentLog ++
        [⟨m.pfx ++ "/ring/all", some [.Int (toI32 n), .Int (toI32 intensity)]⟩]) ∧
    (∀ (m : Monome) (n s e intensity : Nat), m.device_type = .Arc →
      (m.ringRange n s e intensity).sentLog = m.sentLog ++
        [⟨m.pfx ++ "/ring/range",
          some [.Int (toI32 n), .Int (toI32 s), .Int (toI32 e),
            .Int (toI32 intensity)]⟩]) ∧
    (∀ (m : Monome) (enable : Bool),
      (m.tiltAll enable).sentLog = m.sentLog ++
        [⟨m.pfx ++ "/tilt/set",
          some [.Int 0, .Int (if enable then 1 else 0)]⟩]) ∧
    (∀ (m : Monome) (r : Int),
      (m.setRotation r).sentLog = m.sentLog ++
        [⟨"/sys/rotation", some [.Int r]⟩]) ∧
    (∀ (m : Monome) (p : String),
      (m.setPrefixStr p).sentLog = m.sentLog ++
        [⟨"/sys/prefix", some [.Str p]⟩]) := by
  have hsend : ∀ (m : Monome) (addr : String) (args : List OscTypeV),
      (m.send addr args).sentLog = m.sentLog ++ [⟨m.pfx ++ addr, some args⟩] := by
    intro m addr args
    simp only [Monome.send, Monome.sendNoPfx, trySend]
    split <;> rfl
  refine ⟨hsend, ?_, ?_, ?_, ?_, ?_, ?_, ?_, ?_, ?_, ?_, ?_⟩
  · intro m x y arg h
    simp only [Monome.set, h]
    simp only [ne_eq, not_true_eq_false, if_false, reduceIte]
    exact hsend m _ _
  · intro m arg h
    simp only [Monome.all, h]
    simp only [ne_eq, not_true_eq_false, if_false, reduceIte]
    exact hsend m _ _
  · intro m x y masks h
    simp only [Monome.map, h]
    simp only [ne_eq, not_true_eq_false, if_false, reduceIte]
    exact hsend m _ _
  · intro m x y leds h
    simp only [Monome.row, h]
    simp only [ne_eq, not_true_eq_false, if_false, reduceIte]
    exact hsend m _ _
  · intro m x y leds h
    simp only [Monome.col, h]
    simp only [ne_eq, not_true_eq_false, if_false, reduceIte]
    exact hsend m _ _
  · intro m n index intensity h
    simp only [Monome.ringSet, h]
    simp only [ne_eq, not_true_eq_false, if_false, reduceIte]
    exact hsend m _ _
  · intro m n intensity h
    simp only [Monome.ringAll, h]
    simp only [ne_eq, not_true_eq_false, if_false, reduceIte]
    exact hsend m _ _
  · intro m n s e intensity h
    simp only [Monome.ringRange, h]
    simp only [ne_eq, not_true_eq_false, if_false, reduceIte]
    exact hsend m _ _
  · intro m enable
    exact hsend m _ _
  · intro m r
    simp only [Monome.setRotation, Monome.sendNoPfx, trySend]
    split <;> rfl
  · intro m p
    simp only [Monome.setPrefixStr, Monome.sendNoPfx, trySend]
    split <;> rfl

/-- Claim C9 counterexample: the tilt enable command is not sent unprefixed
— on a session with prefix "/prefix" the frame is addressed
"/prefix/tilt/set", not "/tilt/set". -/
theorem claim_C9_counterexample :
    (sampleGrid.tiltAll true).sentLog
      = [⟨"/prefix/tilt/set", some [.Int 0, .Int 1]⟩] ∧
    "/prefix/tilt/set" ≠ "/tilt/set" := by
  constructor
  · decide
  · decide

/-- Witness for C9 at concrete inputs: a prefixed set and an unprefixed
set_rotation. -/
theorem claim_C9_prefixing_witness :
    (sampleGrid.set 1 2 ("level/", .Int 5)).sentLog
      = [⟨"/prefix/grid/led/level/set", some [.Int 1, .Int 2, .Int 5]⟩] ∧
    (sampleGrid.setRotation 90).sentLog = [⟨"/sys/rotation", some [.Int 90]⟩] := by
  constructor
  · exact (claim_C9_prefixing.2.1 sampleGrid 1 2 ("level/", .Int 5)
      (by decide)).trans (by decide)
  · exact (claim_C9_prefixing.2.2.2.2.2.2.2.2.2.2.1 sampleGrid 90).trans
      (by decide)

/-- Claim C2 counterexample: a stray non-device message does reset the
inactivity window, because the loop re-arms a fresh 500 ms delay on every
iteration.  Here a stray arrives 400 ms in and the device announcement
arrives 800 ms after the previous matching receive (the request itself):
the code still collects it, while under the claim's timer semantics
(window reset only by matching receives) the loop would have returned
empty at 500 ms. -/
theorem claim_C2_counterexample :
    enumLoop [] [(400, .Message ⟨"/foo", some []⟩),
      (400, .Message ⟨"/serialosc/device",
        some [.Str "m64", .Str "monome 64", .Int 9]⟩)]
      = [⟨"m64", .Grid, 9⟩] ∧
    enumLoopSpec [] 0 [(400, .Message ⟨"/foo", some []⟩),
      (400, .Message ⟨"/serialosc/device",
        some [.Str "m64", .Str "monome 64", .Int 9]⟩)]
      = [] := by
  constructor <;> decide

/-- Claim C2 amended: each matching /serialosc/device message with a
well-formed (string, string, int) payload appends one descriptor; any other
message is ignored and never appears in the result, but every received
message re-arms the 500 ms window (the delay is rebuilt each iteration), so
the loop keeps going; the loop returns when 500 ms pass with no receive at
all, and also returns at once on a /serialosc/device message with a missing
argument list. -/
theorem claim_C2_enumeration :
    (∀ (events : List (Nat × OscPacket)) (devices : List MonomeDevice),
      enumLoop devices events = devices ++
        (events.takeWhile (fun e => !enumStops e)).filterMap enumExtract) ∧
    (∀ (gap : Nat) (p : OscPacket) (rest : List (Nat × OscPacket))
        (devices : List MonomeDevice),
      gap < DEVICE_ENUMERATION_TIMEOUT_MS →
      enumExtract (gap, p) = none → enumStops (gap, p) = false →
      enumLoop devices ((gap, p) :: rest) = enumLoop devices rest) := by
  have hmain : ∀ (events : List (Nat × OscPacket)) (devices : List MonomeDevice),
      enumLoop devices events = devices ++
        (events.takeWhile (fun e => !enumStops e)).filterMap enumExtract := by
    intro events
    induction events with
    | nil => intro devices; simp [enumLoop]
    | cons e rest ih =>
      obtain ⟨gap, p⟩ := e
      intro devices
      by_cases hgap : DEVICE_ENUMERATION_TIMEOUT_MS ≤ gap
      · have hstop : enumStops (gap, p) = true := by
          simp [enumStops, hgap]
        simp [enumLoop, hgap, List.takeWhile_cons, hstop]
      · cases p with
        | Bundle msgs =>
          have hstop : enumStops (gap, .Bundle msgs) = false := by
            simp [enumStops, hgap]
          have hex : enumExtract (gap, .Bundle msgs) = none := rfl
          simp [enumLoop, hgap, List.takeWhile_cons, hstop, hex, ih]
        | Message msg =>
          by_cases haddr : msg.addr = "/serialosc/device"
          · cases hargs : msg.args with
            | none =>
              have hstop : enumStops (gap, .Message msg) = true := by
                simp [enumStops, hgap, haddr, hargs]
              simp [enumLoop, hgap, haddr, hargs, List.takeWhile_cons, hstop]
            | some args =>
              have hstop : enumStops (gap, .Message msg) = false := by
                simp [enumStops, hgap, haddr, hargs]
              have hex : enumExtract (gap, .Message msg) = deviceOfArgs args := by
                simp [enumExtract, haddr, hargs]
              cases hdev : deviceOfArgs args with
              | some d =>
                simp [enumLoop, hgap, haddr, hargs, hdev, List.takeWhile_cons,
                  hstop, hex, ih]
              | none =>
                simp [enumLoop, hgap, haddr, hargs, hdev, List.takeWhile_cons,
                  hstop, hex, ih]
          · have hstop : enumStops (gap, .Message msg) = false := by
              simp [enumStops, hgap, haddr]
            have hex : enumExtract (gap, .Message msg) = none := by
              simp [enumExtract, haddr]
            simp [enumLoop, hgap, haddr, List.takeWhile_cons, hstop, hex, ih]
  refine ⟨hmain, ?_⟩
  intro gap p rest devices h1 h2 h3
  rw [hmain ((gap, p) :: rest) devices, hmain rest devices]
  simp [List.takeWhile_cons, h3, h2]

/-- Witness for C2 at a concrete input: a stray message 400 ms in is
ignored, and the loop continues exactly as if it had not happened. -/
theorem claim_C2_enumeration_witness :
    enumLoop [] [(400, .Message ⟨"/foo", some []⟩)] = enumLoop [] [] :=
  claim_C2_enumeration.2 400 (.Message ⟨"/foo", some []⟩) [] []
    (by decide) (by decide) (by decide)

theorem applyUpd_empty (i : MonomeInfo) : applyUpd i InfoUpd.empty = i := rfl

theorem fillE_eq_updE (i : MonomeInfo) (p : OscPacket) :
    MonomeInfo.fillE i p = (updE p).map (applyUpd i) := by
  cases p with
  | Message msg =>
    simp only [MonomeInfo.fillE, updE]
    repeat' split
    all_goals rfl
  | Bundle msgs => rfl

theorem applyUpd_comb (i : MonomeInfo) (u v : InfoUpd) :
    applyUpd (applyUpd i u) v = applyUpd i (u.comb v) := by
  simp [applyUpd, InfoUpd.comb, Option.or_assoc]

theorem fillFoldE_eq_updFoldE (l : List OscPacket) :
    ∀ (i : MonomeInfo), fillFoldE i l = (updFoldE l).map (applyUpd i) := by
  induction l with
  | nil => intro i; rfl
  | cons p rest ih =>
    intro i
    simp only [fillFoldE, updFoldE]
    rw [fillE_eq_updE]
    cases hu : updE p with
    | error e => simp [Except.map]
    | ok u =>
      simp only [Except.map]
      rw [ih (applyUpd i u)]
      cases hw : updFoldE rest with
      | error e => simp [Except.map]
      | ok w => simp [Except.map, applyUpd_comb]

theorem updFoldE_field {α : Type} (g : InfoUpd → Option α)
    (hg : ∀ u v, g (u.comb v) = (g v).or (g u)) (hge : g InfoUpd.empty = none) :
    ∀ (l : List OscPacket) (w : InfoUpd), updFoldE l = .ok w →
      g w = lastSome (l.map (fun p =>
        match updE p with | .ok u => g u | .error _ => none)) := by
  intro l
  induction l with
  | nil =>
    intro w h
    simp only [updFoldE] at h
    injection h with h'
    subst h'
    simp [lastSome, hge]
  | cons p rest ih =>
    intro w h
    simp only [updFoldE] at h
    cases hu : updE p with
    | error e => rw [hu] at h; cases h
    | ok u =>
      rw [hu] at h
      cases hw : updFoldE rest with
      | error e => rw [hw] at h; simp [Except.map] at h
      | ok w' =>
        rw [hw] at h
        simp only [Except.map] at h
        injection h with h'
        subst h'
        rw [hg u w', ih w' hw]
        simp [lastSome, hu]

theorem lastSome_map_eq {α β : Type} (f : α → Option β) (l : List α) :
    lastSome (l.map f) = (l.filterMap f).getLast? := by
  induction l with
  | nil => rfl
  | cons a l ih =>
    simp only [List.map, lastSome, List.filterMap_cons]
    cases hf : f a with
    | none => simp [ih]
    | some b =>
      rw [ih]
      show (List.filterMap f l).getLast?.or (some b)
        = ([b] ++ List.filterMap f l).getLast?
      rw [List.getLast?_append]
      cases hl : (List.filterMap f l).getLast? <;> rfl

theorem updFoldE_ok (l : List OscPacket)
    (h : ∀ x ∈ l, ∃ u, updE x = .ok u) : ∃ w, updFoldE l = .ok w := by
  induction l with
  | nil => exact ⟨_, rfl⟩
  | cons p rest ih =>
    obtain ⟨u, hu⟩ := h p (by simp)
    obtain ⟨w, hw⟩ := ih (fun x hx => h x (by simp [hx]))
    exact ⟨u.comb w, by simp [updFoldE, hu, hw, Except.map]⟩

theorem std_updE_ok (p : Int) (ho ident pre : String) (r w hh : Int) :
    ∀ x ∈ stdHandshake p ho ident pre r w hh, ∃ u, updE x = .ok u := by
  intro x hx
  simp only [stdHandshake, List.mem_cons, List.not_mem_nil, or_false] at hx
  rcases hx with rfl | rfl | rfl | rfl | rfl | rfl <;> exact ⟨_, rfl⟩

theorem std_portOf (p : Int) (ho ident pre : String) (r w hh : Int) :
    (stdHandshake p ho ident pre r w hh).filterMap portOf = [p] := rfl

theorem std_hostOf (p : Int) (ho ident pre : String) (r w hh : Int) :
    (stdHandshake p ho ident pre r w hh).filterMap hostOf = [ho] := rfl

theorem std_pfxOf (p : Int) (ho ident pre : String) (r w hh : Int) :
    (stdHandshake p ho ident pre r w hh).filterMap pfxOf = [pre] := rfl

theorem std_idOf (p : Int) (ho ident pre : String) (r w hh : Int) :
    (stdHandshake p ho ident pre r w hh).filterMap idOf = [ident] := rfl

theorem std_sizeOf (p : Int) (ho ident pre : String) (r w hh : Int) :
    (stdHandshake p ho ident pre r w hh).filterMap sizeOf' = [(w, hh)] := rfl

theorem std_rotOf (p : Int) (ho ident pre : String) (r w hh : Int) :
    (stdHandshake p ho ident pre r w hh).filterMap rotOf = [r] := rfl

/-- Claim C6: over any packet sequence the accumulator reports complete
exactly when each of the six fields (port, host, prefix, id, size, rotation)
has been observed at least once; and for the six standard handshake replies
arriving in any order whatsoever, the final descriptor carries exactly the
values of the messages. -/
theorem claim_C6_handshake :
    (∀ (l : List OscPacket) (i' : MonomeInfo),
      fillFoldE MonomeInfo.new l = .ok i' →
      (i'.complete = true ↔
        (l.filterMap portOf ≠ [] ∧ l.filterMap hostOf ≠ [] ∧
          l.filterMap pfxOf ≠ [] ∧ l.filterMap idOf ≠ [] ∧
          l.filterMap sizeOf' ≠ [] ∧ l.filterMap rotOf ≠ []))) ∧
    (∀ (l : List OscPacket) (p : Int) (ho ident pre : String) (r w hh : Int),
      l.Perm (stdHandshake p ho ident pre r w hh) →
      fillFoldE MonomeInfo.new l =
        .ok ⟨some p, some ho, some pre, some ident, some (w, hh), some r⟩) := by
  constructor
  · intro l i' h
    rw [fillFoldE_eq_updFoldE] at h
    cases hw : updFoldE l with
    | error e => rw [hw] at h; simp [Except.map] at h
    | ok w =>
      rw [hw] at h
      simp only [Except.map] at h
      injection h with h'
      subst h'
      have h1 : w.port = (l.filterMap portOf).getLast? := by
        have := updFoldE_field (fun u => u.port) (fun u v => rfl) rfl l w hw
        rw [lastSome_map_eq] at this
        exact this
      have h2 : w.host = (l.filterMap hostOf).getLast? := by
        have := updFoldE_field (fun u => u.host) (fun u v => rfl) rfl l w hw
        rw [lastSome_map_eq] at this
        exact this
      have h3 : w.pfx = (l.filterMap pfxOf).getLast? := by
        have := updFoldE_field (fun u => u.pfx) (fun u v => rfl) rfl l w hw
        rw [lastSome_map_eq] at this
        exact this
      have h4 : w.id = (l.filterMap idOf).getLast? := by
        have := updFoldE_field (fun u => u.id) (fun u v => rfl) rfl l w hw
        rw [lastSome_map_eq] at this
        exact this
      have h5 : w.size = (l.filterMap sizeOf').getLast? := by
        have := updFoldE_field (fun u => u.size) (fun u v => rfl) rfl l w hw
        rw [lastSome_map_eq] at this
        exact this
      have h6 : w.rotation = (l.filterMap rotOf).getLast? := by
        have := updFoldE_field (fun u => u.rotation) (fun u v => rfl) rfl l w hw
        rw [lastSome_map_eq] at this
        exact this
      simp only [MonomeInfo.complete, applyUpd, MonomeInfo.new, Option.or_none]
      rw [h1, h2, h3, h4, h5, h6]
      simp [Bool.and_eq_true, and_assoc, Option.isSome_iff_ne_none,
        List.getLast?_eq_none_iff]
  · intro l p ho ident pre r w hh hperm
    have hok : ∀ x ∈ l, ∃ u, updE x = .ok u :=
      fun x hx => std_updE_ok p ho ident pre r w hh x (hperm.subset hx)
    obtain ⟨w0, hw0⟩ := updFoldE_ok l hok
    have e1 : List.filterMap portOf l = [p] := by
      have hp := hperm.filterMap portOf
      rw [std_portOf] at hp
      exact List.perm_singleton.mp hp
    have e2 : List.filterMap hostOf l = [ho] := by
      have hp := hperm.filterMap hostOf
      rw [std_hostOf] at hp
      exact List.perm_singleton.mp hp
    have e3 : List.filterMap pfxOf l = [pre] := by
      have hp := hperm.filterMap pfxOf
      rw [std_pfxOf] at hp
      exact List.perm_singleton.mp hp
    have e4 : List.filterMap idOf l = [ident] := by
      have hp := hperm.filterMap idOf
      rw [std_idOf] at hp
      exact List.perm_singleton.mp hp
    have e5 : List.filterMap sizeOf' l = [(w, hh)] := by
      have hp := hperm.filterMap sizeOf'
      rw [std_sizeOf] at hp
      exact List.perm_singleton.mp hp
    have e6 : List.filterMap rotOf l = [r] := by
      have hp := hperm.filterMap rotOf
      rw [std_rotOf] at hp
      exact List.perm_singleton.mp hp
    have h1 : w0.port = some p := by
      have h1' : w0.port = (l.filterMap portOf).getLast? := by
        have := updFoldE_field (fun u => u.port) (fun u v => rfl) rfl l w0 hw0
        rw [lastSome_map_eq] at this
        exact this
      rw [e1] at h1'
      exact h1'
    have h2 : w0.host = some ho := by
      have h2' : w0.host = (l.filterMap hostOf).getLast? := by
        have := updFoldE_field (fun u => u.host) (fun u v => rfl) rfl l w0 hw0
        rw [lastSome_map_eq] at this
        exact this
      rw [e2] at h2'
      exact h2'
    have h3 : w0.pfx = some pre := by
      have h3' : w0.pfx = (l.filterMap pfxOf).getLast? := by
        have := updFoldE_field (fun u => u.pfx) (fun u v => rfl) rfl l w0 hw0
        rw [lastSome_map_eq] at this
        exact this
      rw [e3] at h3'
      exact h3'
    have h4 : w0.id = some ident := by
      have h4' : w0.id = (l.filterMap idOf).getLast? := by
        have := updFoldE_field (fun u => u.id) (fun u v => rfl) rfl l w0 hw0
        rw [lastSome_map_eq] at this
        exact this
      rw [e4] at h4'
      exact h4'
    have h5 : w0.size = some (w, hh) := by
      have h5' : w0.size = (l.filterMap sizeOf').getLast? := by
        have := updFoldE_field (fun u => u.size) (fun u v => rfl) rfl l w0 hw0
        rw [lastSome_map_eq] at this
        exact this
      rw [e5] at h5'
      exact h5'
    have h6 : w0.rotation = some r := by
      have h6' : w0.rotation = (l.filterMap rotOf).getLast? := by
        have := updFoldE_field (fun u => u.rotation) (fun u v => rfl) rfl l w0 hw0
        rw [lastSome_map_eq] at this
        exact this
      rw [e6] at h6'
      exact h6'
    rw [fillFoldE_eq_updFoldE, hw0]
    simp [Except.map, applyUpd, MonomeInfo.new, h1, h2, h3, h4, h5, h6]

/-- Witness for C6 at a concrete out-of-order arrival (the six replies fully
reversed): the handshake still produces the correct descriptor. -/
theorem claim_C6_handshake_witness :
    fillFoldE MonomeInfo.new
      [.Message ⟨"/sys/size", some [.Int 16, .Int 8]⟩,
       .Message ⟨"/sys/rotation", some [.Int 0]⟩,
       .Message ⟨"/sys/prefix", some [.Str "/plop"]⟩,
       .Message ⟨"/sys/id", some [.Str "m123"]⟩,
       .Message ⟨"/sys/host", some [.Str "127.0.0.1"]⟩,
       .Message ⟨"/sys/port", some [.Int 1234]⟩]
      = .ok ⟨some 1234, some "127.0.0.1", some "/plop", some "m123",
          some (16, 8), some 0⟩ :=
  claim_C6_handshake.2 _ 1234 "127.0.0.1" "m123" "/plop" 0 16 8 (by decide)

theorem map_preserves (m : Monome) (x y : Int) (fa : String × List OscTypeV) :
    (m.map x y fa).device_type = m.device_type ∧
    (m.map x y fa).pfx = m.pfx ∧ (m.map x y fa).size = m.size := by
  simp only [Monome.map, Monome.send, Monome.sendNoPfx, trySend]
  repeat' split
  all_goals exact ⟨rfl, rfl, rfl⟩

theorem map_sentLog (m : Monome) (x y : Int) (fa : String × List OscTypeV)
    (h : m.device_type = .Grid) :
    (m.map x y fa).sentLog = m.sentLog ++
      [⟨m.pfx ++ ("/grid/led/" ++ fa.1 ++ "map"),
        some (.Int x :: .Int y :: fa.2)⟩] := by
  simp only [Monome.map, h]
  simp only [ne_eq, not_true_eq_false, if_false, reduceIte]
  simp only [Monome.send, Monome.sendNoPfx, trySend]
  split <;> rfl

theorem foldRange_map (fa : Nat → String × List OscTypeV) (xo yo : Nat → Int) :
    ∀ (n : Nat) (m : Monome), m.device_type = .Grid →
      (((List.range n).foldl (fun mm b => mm.map (xo b) (yo b) (fa b)) m).device_type
          = .Grid ∧
        ((List.range n).foldl (fun mm b => mm.map (xo b) (yo b) (fa b)) m).pfx
          = m.pfx ∧
        ((List.range n).foldl (fun mm b => mm.map (xo b) (yo b) (fa b)) m).size
          = m.size) ∧
      ((List.range n).foldl (fun mm b => mm.map (xo b) (yo b) (fa b)) m).sentLog
        = m.sentLog ++ (List.range n).map (fun b =>
            ⟨m.pfx ++ ("/grid/led/" ++ (fa b).1 ++ "map"),
              some (.Int (xo b) :: .Int (yo b) :: (fa b).2)⟩) := by
  intro n
  induction n with
  | zero => intro m h; exact ⟨⟨h, rfl, rfl⟩, by simp⟩
  | succ n ih =>
    intro m h
    obtain ⟨⟨hd, hp, hs⟩, hl⟩ := ih m h
    rw [List.range_succ]
    simp only [List.foldl_append, List.foldl_cons, List.foldl_nil]
    obtain ⟨pd, pp, ps⟩ := map_preserves
      ((List.range n).foldl (fun mm b => mm.map (xo b) (yo b) (fa b)) m)
      (xo n) (yo n) (fa n)
    have hlog := map_sentLog
      ((List.range n).foldl (fun mm b => mm.map (xo b) (yo b) (fa b)) m)
      (xo n) (yo n) (fa n) hd
    refine ⟨⟨pd.trans hd, pp.trans hp, ps.trans hs⟩, ?_⟩
    rw [hlog, hl, hp]
    rw [List.map_append]
    simp

theorem foldRange2_map (fa : Nat → Nat → String × List OscTypeV) (wq : Nat) :
    ∀ (hq : Nat) (m : Monome), m.device_type = .Grid →
      ((List.range hq).foldl (fun macc a => (List.range wq).foldl
          (fun mm b => mm.map ((b : Int) * 8) ((a : Int) * 8) (fa a b)) macc)
          m).sentLog
        = m.sentLog ++ (List.range hq).flatMap (fun a =>
            (List.range wq).map (fun b =>
              ⟨m.pfx ++ ("/grid/led/" ++ (fa a b).1 ++ "map"),
                some (.Int ((b : Int) * 8) :: .Int ((a : Int) * 8) ::
                  (fa a b).2)⟩)) := by
  have step : ∀ (hq : Nat) (m : Monome), m.device_type = .Grid →
      (((List.range hq).foldl (fun macc a => (List.range wq).foldl
          (fun mm b => mm.map ((b : Int) * 8) ((a : Int) * 8) (fa a b)) macc)
          m).device_type = .Grid ∧
        ((List.range hq).foldl (fun macc a => (List.range wq).foldl
          (fun mm b => mm.map ((b : Int) * 8) ((a : Int) * 8) (fa a b)) macc)
          m).pfx = m.pfx) ∧
      ((List.range hq).foldl (fun macc a => (List.range wq).foldl
          (fun mm b => mm.map ((b : Int) * 8) ((a : Int) * 8) (fa a b)) macc)
          m).sentLog
        = m.sentLog ++ (List.range hq).flatMap (fun a =>
            (List.range wq).map (fun b =>
              ⟨m.pfx ++ ("/grid/led/" ++ (fa a b).1 ++ "map"),
                some (.Int ((b : Int) * 8) :: .Int ((a : Int) * 8) ::
                  (fa a b).2)⟩)) := by
    intro hq
    induction hq with
    | zero => intro m h; exact ⟨⟨h, rfl⟩, by simp⟩
    | succ n ih =>
      intro m h
      obtain ⟨⟨hd, hp⟩, hl⟩ := ih m h
      rw [List.range_succ]
      simp only [List.foldl_append, List.foldl_cons, List.foldl_nil]
      obtain ⟨⟨pd, pp, _⟩, plog⟩ := foldRange_map (fa n)
        (fun b => (b : Int) * 8) (fun _ => (n : Int) * 8) wq _ hd
      refine ⟨⟨pd, pp.trans hp⟩, ?_⟩
      rw [plog, hl, hp]
      rw [List.flatMap_append]
      simp
  intro hq m h
  exact (step hq m h).2

theorem toidx_quad (wq hq a b i j : Nat) (ha : a < hq) (hb : b < wq)
    (hi : i < 8) (hj : j < 8) (hbound : 64 * wq * hq < 2 ^ 31) :
    toidx ((b : Int) * 8 + (j : Int)) ((a : Int) * 8 + (i : Int))
        (8 * (wq : Int))
      = (8 * a + i) * (8 * wq) + (8 * b + j) := by
  have h1' : a * 8 + i + 1 ≤ 8 * hq := by omega
  have h3 := Nat.mul_le_mul_right (8 * wq) h1'
  have h2 : b * 8 + j < 8 * wq := by omega
  have hnat : (a * 8 + i) * (8 * wq) + (b * 8 + j) < 2 ^ 31 := by
    nlinarith [h3, h2, hbound]
  have h0 : (0 : Int) ≤
      ((a : Int) * 8 + (i : Int)) * (8 * (wq : Int)) + ((b : Int) * 8 + (j : Int)) := by
    positivity
  have hcast : ((a : Int) * 8 + (i : Int)) * (8 * (wq : Int))
        + ((b : Int) * 8 + (j : Int))
      = (((a * 8 + i) * (8 * wq) + (b * 8 + j) : Nat) : Int) := by
    push_cast
    ring
  have h64 : ((a : Int) * 8 + (i : Int)) * (8 * (wq : Int))
      + ((b : Int) * 8 + (j : Int)) < 2 ^ 64 := by
    rw [hcast]
    calc (((a * 8 + i) * (8 * wq) + (b * 8 + j) : Nat) : Int)
        < ((2 ^ 31 : Nat) : Int) := by exact_mod_cast hnat
      _ < 2 ^ 64 := by norm_num
  have ht := toidx_small ((b : Int) * 8 + (j : Int)) ((a : Int) * 8 + (i : Int))
    (8 * (wq : Int)) h0 h64
  have hfin : toidx ((b : Int) * 8 + (j : Int)) ((a : Int) * 8 + (i : Int))
      (8 * (wq : Int)) = (a * 8 + i) * (8 * wq) + (b * 8 + j) := by
    exact_mod_cast ht.trans hcast
  rw [hfin]
  ring

theorem quadMasks_testBit (leds : Nat → Bool) (wq hq a b i k : Nat)
    (ha : a < hq) (hb : b < wq) (hi : i < 8) (hk : k < 8)
    (hbound : 64 * wq * hq < 2 ^ 31) :
    ((quadMasks leds (8 * (wq : Int)) (a : Int) (b : Int)).getD i 0).testBit k
      = leds ((8 * a + i) * (8 * wq) + (8 * b + k)) := by
  have hgetD : (quadMasks leds (8 * (wq : Int)) (a : Int) (b : Int)).getD i 0
      = packLoop (fun j => leds (toidx ((b : Int) * 8 + (j : Int))
          ((a : Int) * 8 + (i : Int)) (8 * (wq : Int)))) 8 0 := by
    simp [quadMasks, List.getD, List.getElem?_map, List.getElem?_range, hi]
  rw [hgetD, packLoop_eq _ 8 0 (by omega) (by norm_num), Nat.zero_mul,
    Nat.zero_add]
  have hlow := lowBits_congr 8
    (fun j => leds (toidx ((b : Int) * 8 + (j : Int))
      ((a : Int) * 8 + (i : Int)) (8 * (wq : Int))))
    (fun j => leds ((8 * a + i) * (8 * wq) + (8 * b + j)))
    (fun j hj => congrArg leds (toidx_quad wq hq a b i j ha hb hi hj hbound))
  rw [hlow]
  exact testBit_lowBits 8 _ k hk

theorem flatMap_congr_of_forall {α β : Type} (l : List α) (f g : α → List β)
    (h : ∀ x ∈ l, f x = g x) : l.flatMap f = l.flatMap g := by
  induction l with
  | nil => rfl
  | cons x l ih =>
    simp only [List.flatMap_cons]
    rw [h x (by simp), ih (fun y hy => h y (by simp [hy]))]

theorem quadIntensities_eq (ledsI : Nat → Nat) (wq hq a b : Nat)
    (ha : a < hq) (hb : b < wq) (hbound : 64 * wq * hq < 2 ^ 31) :
    quadIntensities ledsI (8 * (wq : Int)) (a : Int) (b : Int)
      = (List.range 8).flatMap (fun i => (List.range 8).map (fun j =>
          ledsI ((8 * a + i) * (8 * wq) + (8 * b + j)))) := by
  unfold quadIntensities
  apply flatMap_congr_of_forall
  intro i hi
  apply List.map_congr_left
  intro j hj
  exact congrArg ledsI (toidx_quad wq hq a b i j ha hb
    (List.mem_range.mp hi) (List.mem_range.mp hj) hbound)

theorem setAll_eq (m : Monome) (leds : Nat → Bool) (wq hq : Nat)
    (hty : m.device_type = .Grid)
    (hsz : m.size = (8 * (wq : Int), 8 * (hq : Int))) :
    m.setAll leds = (List.range hq).foldl (fun macc (a : Nat) =>
      (List.range wq).foldl (fun mm (b : Nat) =>
        mm.map ((b : Int) * 8) ((a : Int) * 8)
          (u8x8AddrArgs (quadMasks leds (8 * (wq : Int)) (a : Int) (b : Int))))
        macc) m := by
  have e1 : ((8 * (wq : Int)) / 8).toNat = wq := by omega
  have e2 : ((8 * (hq : Int)) / 8).toNat = hq := by omega
  unfold Monome.setAll
  simp only [hty, hsz, ne_eq, not_true_eq_false, if_false, reduceIte]
  rw [e1, e2]

theorem setAllIntensity_eq (m : Monome) (ledsI : Nat → Nat) (wq hq : Nat)
    (hty : m.device_type = .Grid)
    (hsz : m.size = (8 * (wq : Int), 8 * (hq : Int))) :
    m.setAllIntensity ledsI = (List.range hq).foldl (fun macc (a : Nat) =>
      (List.range wq).foldl (fun mm (b : Nat) =>
        mm.map ((b : Int) * 8) ((a : Int) * 8)
          (u8x64AddrArgs
            (quadIntensities ledsI (8 * (wq : Int)) (a : Int) (b : Int))))
        macc) m := by
  have e1 : ((8 * (wq : Int)) / 8).toNat = wq := by omega
  have e2 : ((8 * (hq : Int)) / 8).toNat = hq := by omega
  unfold Monome.setAllIntensity
  simp only [hty, hsz, ne_eq, not_true_eq_false, if_false, reduceIte]
  rw [e1, e2]

/-- Claim C5: on a Grid of size 8wq x 8hq (both multiples of 8, within i32
index range), set_all and set_all_intensity issue exactly hq*wq map commands
— one per 8x8 quadrant, in row-major quadrant order (a the quadrant row, b
the quadrant column), each addressed to the distinct origin (8b, 8a) — where
the set_all command for quadrant (a,b) carries that quadrant's 64 cells as 8
packed row masks (bit k of mask i is cell (8b+k, 8a+i)) and the
set_all_intensity command carries the quadrant's 64 intensities row-major. -/
theorem claim_C5_set_all_quadrants (m : Monome) (leds : Nat → Bool)
    (ledsI : Nat → Nat) (wq hq : Nat) (hty : m.device_type = .Grid)
    (hsz : m.size = (8 * (wq : Int), 8 * (hq : Int)))
    (hbound : 64 * wq * hq < 2 ^ 31) :
    ((m.setAll leds).sentLog = m.sentLog ++
      (List.range hq).flatMap (fun a => (List.range wq).map (fun b =>
        ⟨m.pfx ++ "/grid/led/map",
          some (.Int ((b : Int) * 8) :: .Int ((a : Int) * 8) ::
            (quadMasks leds (8 * (wq : Int)) (a : Int) (b : Int)).map
              (fun (v : Nat) => .Int (v : Int)))⟩))) ∧
    ((m.setAll leds).sentLog.length = m.sentLog.length + hq * wq) ∧
    ((m.setAllIntensity ledsI).sentLog = m.sentLog ++
      (List.range hq).flatMap (fun a => (List.range wq).map (fun b =>
        ⟨m.pfx ++ "/grid/led/level/map",
          some (.Int ((b : Int) * 8) :: .Int ((a : Int) * 8) ::
            (quadIntensities ledsI (8 * (wq : Int)) (a : Int) (b : Int)).map
              (fun (v : Nat) => .Int (v : Int)))⟩))) ∧
    ((m.setAllIntensity ledsI).sentLog.length = m.sentLog.length + hq * wq) ∧
    (∀ a b i k : Nat, a < hq → b < wq → i < 8 → k < 8 →
      ((quadMasks leds (8 * (wq : Int)) (a : Int) (b : Int)).getD i 0).testBit k
        = leds ((8 * a + i) * (8 * wq) + (8 * b + k))) ∧
    (∀ a b : Nat, a < hq → b < wq →
      quadIntensities ledsI (8 * (wq : Int)) (a : Int) (b : Int)
        = (List.range 8).flatMap (fun i => (List.range 8).map (fun j =>
            ledsI ((8 * a + i) * (8 * wq) + (8 * b + j))))) ∧
    (∀ a b a' b' : Nat,
      (((b : Int) * 8, (a : Int) * 8) = ((b' : Int) * 8, (a' : Int) * 8)) →
      a = a' ∧ b = b') := by
  have hs : ("/grid/led/" ++ "" ++ "map" : String) = "/grid/led/map" := rfl
  have hs2 : ("/grid/led/" ++ "level/" ++ "map" : String)
      = "/grid/led/level/map" := rfl
  have ha : (m.setAll leds).sentLog = m.sentLog ++
      (List.range hq).flatMap (fun a => (List.range wq).map (fun b =>
        ⟨m.pfx ++ "/grid/led/map",
          some (.Int ((b : Int) * 8) :: .Int ((a : Int) * 8) ::
            (quadMasks leds (8 * (wq : Int)) (a : Int) (b : Int)).map
              (fun (v : Nat) => .Int (v : Int)))⟩)) := by
    rw [setAll_eq m leds wq hq hty hsz]
    rw [foldRange2_map (fun a b =>
      u8x8AddrArgs (quadMasks leds (8 * (wq : Int)) (a : Int) (b : Int)))
      wq hq m hty]
    simp only [u8x8AddrArgs, hs]
  have hb : (m.setAllIntensity ledsI).sentLog = m.sentLog ++
      (List.range hq).flatMap (fun a => (List.range wq).map (fun b =>
        ⟨m.pfx ++ "/grid/led/level/map",
          some (.Int ((b : Int) * 8) :: .Int ((a : Int) * 8) ::
            (quadIntensities ledsI (8 * (wq : Int)) (a : Int) (b : Int)).map
              (fun (v : Nat) => .Int (v : Int)))⟩)) := by
    rw [setAllIntensity_eq m ledsI wq hq hty hsz]
    rw [foldRange2_map (fun a b =>
      u8x64AddrArgs (quadIntensities ledsI (8 * (wq : Int)) (a : Int) (b : Int)))
      wq hq m hty]
    simp only [u8x64AddrArgs, hs2]
  refine ⟨ha, ?_, hb, ?_, ?_, ?_, ?_⟩
  · rw [ha]
    simp [List.length_flatMap, Function.comp_def, List.length_map,
      List.length_range, List.map_const', List.sum_replicate, smul_eq_mul,
      Nat.mul_comm]
  · rw [hb]
    simp [List.length_flatMap, Function.comp_def, List.length_map,
      List.length_range, List.map_const', List.sum_replicate, smul_eq_mul,
      Nat.mul_comm]
  · intro a b i k ha' hb' hi hk
    exact quadMasks_testBit leds wq hq a b i k ha' hb' hi hk hbound
  · intro a b ha' hb'
    exact quadIntensities_eq ledsI wq hq a b ha' hb' hbound
  · intro a b a' b' h
    rw [Prod.ext_iff] at h
    obtain ⟨h1, h2⟩ := h
    constructor <;> omega

/-- Witness for C5 at the concrete 16x8 sample grid (wq = 2, hq = 1):
set_all issues exactly 2 map commands. -/
theorem claim_C5_set_all_quadrants_witness :
    (sampleGrid.setAll (fun n => decide (n % 2 = 0))).sentLog.length = 2 := by
  have h := (claim_C5_set_all_quadrants sampleGrid
    (fun n => decide (n % 2 = 0)) (fun _ => 0) 2 1
    (by decide) (by decide) (by decide)).2.1
  exact h.trans (by decide)
